import Mathlib

/-
Verification of the Chesser game-state synchronization engine.

The repository wraps two external black boxes (the chess.js rules engine and
the chessground rendering engine) in a synchronization controller.  The
controller code is embedded shallowly below; the two external engines are
modelled through the contract the controller relies on, parameterized over an
abstract position type.  JavaScript object spread and Object.assign are
modelled on association lists of string keys.
-/

set_option maxRecDepth 4000

namespace ChesserSpec

/-! ## JavaScript object model: association lists with string keys -/

/-- Property lookup on a JavaScript-style object: the value of the first
binding of key `k`, or `none` when the property is absent. -/
def getProp {V : Type} : List (String × V) → String → Option V
  | [], _ => none
  | p :: rest, k => if p.1 = k then some p.2 else getProp rest k

/-- Property update on a JavaScript-style object: replace the binding of `k`
when present, otherwise add it at the end.  This is the single-property step
of `Object.assign` and of object-spread literals. -/
def setProp {V : Type} (o : List (String × V)) (k : String) (v : V) : List (String × V) :=
  match getProp o k with
  | some _ => o.map fun p => if p.1 = k then (k, v) else p
  | none => o ++ [(k, v)]

/-- `Object.assign(target, src)`: every own property of `src` is written into
`target`, later sources winning.  Spread literals desugar to the same
operation. -/
def objAssign {V : Type} (target src : List (String × V)) : List (String × V) :=
  src.foldl (fun acc p => setProp acc p.1 p.2) target

/-! ## The rules-engine contract (chess.js, spec section 6)

The controller treats the rules engine as a black box: apply a move given by
origin and destination squares, query turn color and check status, enumerate
legal moves per square, undo to the previous position.  `Rules` packages the
per-position queries; `Eng` is the mutable engine instance, whose undo stack
records, for every applied move, the position it was applied from, matching
the observable behavior of chess.js `move`/`undo`/`fen`/`history`. -/

/-- A verbose move as produced by the rules engine: origin square,
destination square, and display notation. -/
structure ChessMove where
  mfrom : String
  mto : String
  san : String
  deriving DecidableEq, Repr

/-- The per-position queries of the rules-engine contract. -/
structure Rules (Pos : Type) where
  applyFromTo : Pos → String → String → Option (ChessMove × Pos)
  turnWhite : Pos → Bool
  inCheck : Pos → Bool
  movesFrom : Pos → String → List ChessMove
  squares : List String

/-- A rules-engine instance: the current position plus the undo stack, each
entry holding the position a move was applied from together with that move. -/
structure Eng (Pos : Type) where
  cur : Pos
  hist : List (Pos × ChessMove)
  deriving DecidableEq, Repr

/-- chess.js `move(x)`: input `none` models passing `null` or `undefined`
(returns `null`, no state change); a from-to pair is applied when legal,
pushing the previous position on the undo stack, and returns `null` with no
state change when illegal. -/
def engMove {Pos : Type} (r : Rules Pos) (e : Eng Pos) :
    Option (String × String) → Option ChessMove × Eng Pos
  | none => (none, e)
  | some (f, t) =>
    match r.applyFromTo e.cur f t with
    | none => (none, e)
    | some (mv, p) => (some mv, { cur := p, hist := e.hist ++ [(e.cur, mv)] })

/-- chess.js `undo()`: pop the undo stack when nonempty, otherwise no-op. -/
def engUndo {Pos : Type} (e : Eng Pos) : Eng Pos :=
  match e.hist.getLast? with
  | none => e
  | some (p, _) => { cur := p, hist := e.hist.dropLast }

/-- chess.js `history(verbose)`: the moves of the undo stack in order. -/
def engHistory {Pos : Type} (e : Eng Pos) : List ChessMove :=
  e.hist.map fun q => q.2

/-- chess.js `pgn()`: the game-notation serialization, modelled as the
notation strings of the current history joined by spaces. -/
def pgn_of {Pos : Type} (e : Eng Pos) : String :=
  String.intercalate " " ((engHistory e).map fun m => m.san)

/-! ## Controller embedding (src/unnamed/part_000, class Chesser)

The rendering engine (chessground) is modelled by the visual state the
controller pushes into it; the persisted record under the instance key and a
count of `write_state` calls model the keyed store.  DOM concerns (menu
construction, CSS classes) are outside the data model. -/

/-- The visual state held by the rendering engine, as set by the controller:
shown diagram, check flag, turn color (true = white), and the map of legal
destinations. -/
structure CgView (Pos : Type) where
  fen : Pos
  check : Bool
  turnWhite : Bool
  dests : List (String × List String)
  deriving DecidableEq, Repr

/-- The state owned by a Chesser instance: the rules-engine instance, the
move ledger `moves` (entries are `Option` because the handler pushes the raw
result of chess.js `move`, which can be `null`), the cursor `currentMoveIdx`,
the persisted record under this instance key, and the number of
`write_state` calls performed. -/
structure CState (Pos : Type) where
  eng : Eng Pos
  moves : List (Option ChessMove)
  cursor : Int
  stored : List (String × String)
  writes : Nat
  cg : CgView Pos
  deriving DecidableEq, Repr

/-- `color_turn()` from the source: white when chess.turn() is w. -/
def color_turn {Pos : Type} (r : Rules Pos) (p : Pos) : Bool :=
  r.turnWhite p

/-- `dests()` from the source: for every square with at least one legal move,
the list of its destination squares. -/
def dests {Pos : Type} (r : Rules Pos) (p : Pos) : List (String × List String) :=
  r.squares.filterMap fun s =>
    let ms := r.movesFrom p s
    if ms.isEmpty then none else some (s, ms.map fun m => m.mto)

/-- `check()` from the source: chess.in_check(). -/
def check {Pos : Type} (r : Rules Pos) (p : Pos) : Bool :=
  r.inCheck p

/-- `save_move()` from the source, at the level of the record stored under
this instance key: re-read the stored record and overwrite its pgn field
with the current game notation (object spread), then write it back. -/
def save_move_record {Pos : Type} (st : CState Pos) : List (String × String) :=
  objAssign st.stored [("pgn", pgn_of st.eng)]

/-- `sync_board_with_gamestate()` from the source: push recomputed check,
turn color and legal destinations to the rendering engine, then persist via
`save_move` (menu reconstruction is a DOM concern and carries no data). -/
def sync_board_with_gamestate {Pos : Type} (r : Rules Pos) (st : CState Pos) : CState Pos :=
  { st with
    cg := { st.cg with
            check := check r st.eng.cur
            turnWhite := color_turn r st.eng.cur
            dests := dests r st.eng.cur }
    stored := save_move_record st
    writes := st.writes + 1 }

/-- The move event handler installed on the rendering engine in non-free
mode: apply the move through the rules engine, push the result onto the
ledger, and resynchronize.  Note that `currentMoveIdx` is not touched. -/
def move_event {Pos : Type} (r : Rules Pos) (st : CState Pos) (orig dest : String) : CState Pos :=
  let res := engMove r st.eng (some (orig, dest))
  sync_board_with_gamestate r { st with eng := res.2, moves := st.moves ++ [res.1] }

/-- JavaScript array indexing `a[i]` with a possibly negative index:
`undefined` outside the bounds. -/
def jsIndex {A : Type} (l : List A) (i : Int) : Option A :=
  if 0 ≤ i then l.get? i.toNat else none

/-- `undo_move()` from the source: return early when `currentMoveIdx` is 0,
otherwise decrement the cursor, undo inside the rules engine, push the new
diagram to the rendering engine and resynchronize. -/
def undo_move {Pos : Type} (r : Rules Pos) (st : CState Pos) : CState Pos :=
  if st.cursor = 0 then st
  else
    let e := engUndo st.eng
    sync_board_with_gamestate r
      { st with cursor := st.cursor - 1, eng := e, cg := { st.cg with fen := e.cur } }

/-- `redo_move()` from the source: return early when `currentMoveIdx` is at
the ledger end, otherwise increment the cursor, replay the ledger entry at
the new cursor through the rules engine (chess.js ignores a null or
undefined argument), push the new diagram and resynchronize. -/
def redo_move {Pos : Type} (r : Rules Pos) (st : CState Pos) : CState Pos :=
  if st.cursor = (st.moves.length : Int) - 1 then st
  else
    let c := st.cursor + 1
    let entry := (jsIndex st.moves c).join
    let res := engMove r st.eng (entry.map fun m => (m.mfrom, m.mto))
    sync_board_with_gamestate r
      { st with cursor := c, eng := res.2, cg := { st.cg with fen := res.2.cur } }

/-- The tail of the constructor (after the engine is loaded and the
rendering engine created): the ledger is initialized from the engine
history, and `currentMoveIdx` from the declared config when present,
otherwise the ledger end.  `stored0` is the record currently stored under
the instance key. -/
def mkChesser {Pos : Type} (r : Rules Pos) (e : Eng Pos) (userCursor : Option Int)
    (stored0 : List (String × String)) : CState Pos :=
  let ms := (engHistory e).map some
  { eng := e
    moves := ms
    cursor := userCursor.getD ((ms.length : Int) - 1)
    stored := stored0
    writes := 0
    cg := { fen := e.cur, check := false, turnWhite := true, dests := dests r e.cur } }

/-- The spec-side replay: the position obtained from the initial position by
replaying the ledger entries up to and including index `cursor` (the
sentinel -1 replays nothing).  Null ledger entries replay as no-ops, the
way chess.js treats a null move argument. -/
def replayLedger {Pos : Type} (r : Rules Pos) (init : Pos)
    (moves : List (Option ChessMove)) (cursor : Int) : Pos :=
  (moves.take (cursor + 1).toNat).foldl
    (fun acc mv? =>
      match mv? with
      | none => acc
      | some m =>
        match r.applyFromTo acc m.mfrom m.mto with
        | some (_, p) => p
        | none => acc)
    init

/-! ## Configuration merge and instance identity (constructor, part_000) -/

/-- `read_state(id)` from the source: `localStorage.getItem` followed by
`JSON.parse` in a try/catch.  `parse` abstracts `JSON.parse` composed with
the shape of the stored record; `store` is the keyed string store.  The
first component is the returned record (`none` both for an absent key,
where `JSON.parse` of a stringified `null` yields `null`, and for the
caught parse error); the second component records whether `console.error`
reported a parse failure. -/
def read_state (parse : String → Option (List (String × String)))
    (store : String → Option String) (id : String) :
    Option (List (String × String)) × Bool :=
  match store ("chesser-" ++ id) with
  | none => (none, false)
  | some s =>
    match parse s with
    | some rec => (some rec, false)
    | none => (none, true)

/-- The configuration merge of the constructor:
`Object.assign(emptyObject, user_config, saved_config)`, with an absent
saved record ignored the way `Object.assign` ignores `null` and
`undefined` sources. -/
def merge_config (user : List (String × String)) (saved : Option (List (String × String))) :
    List (String × String) :=
  match saved with
  | none => objAssign [] user
  | some s => objAssign (objAssign [] user) s

/-- Modelled from the nanoid library contract: `nanoid(size)` returns a
string of `size` characters drawn from its alphabet by the random source. -/
def nanoid (rand : Nat → Char) (size : Nat) : String :=
  String.mk ((List.range size).map rand)

/-- The instance identifier of the constructor:
`user_config.id ?? nanoid(8)`. -/
def chesser_id (userId : Option String) (fresh : String) : String :=
  userId.getD fresh

/-- Whether the constructor registers the one deferred id write-back:
exactly when `user_config.id` is undefined.  The host contract
(`onLayoutReady`) invokes a registered callback exactly once. -/
def writeback_scheduled (userId : Option String) : Bool :=
  userId.isNone

/-- `write_config(config)` from the source, at the parsed level: the block
text is re-serialized from the current parsed config updated by the given
fields (object spread); the yaml stringify/parse round-trip of the host
library is the identity on the parsed record. -/
def write_config_merge (current cfg : List (String × String)) : List (String × String) :=
  objAssign current cfg

/-! ## Keyed-store persistence (part_000 save_move / save_shapes)

These two functions read the record stored under the instance key, update
one field by object spread, and write the record back.  They are embedded
at the parsed-record level (`JSON.stringify` and `JSON.parse` of the store
round-trip); a store maps keys to parsed records, `none` meaning absent or
unreadable. -/

/-- The record read for the update step of `save_move`/`save_shapes`:
`read_state(this.id)` at the parsed level. -/
def read_state_rec (store : String → Option (List (String × String))) (id : String) :
    Option (List (String × String)) :=
  store ("chesser-" ++ id)

/-- `write_state(id, record)` at the parsed level. -/
def write_state_rec (store : String → Option (List (String × String))) (id : String)
    (rec : List (String × String)) : String → Option (List (String × String)) :=
  fun k => if k = "chesser-" ++ id then some rec else store k

/-- `save_move()` from part_000: overwrite only the pgn field of the stored
record (spread of the freshly read record, then the pgn binding). An absent
or unreadable record spreads to the empty object. -/
def save_move (store : String → Option (List (String × String))) (id : String)
    (pgn : String) : String → Option (List (String × String)) :=
  write_state_rec store id (objAssign ((read_state_rec store id).getD []) [("pgn", pgn)])

/-- `save_shapes(shapes)` from part_000: overwrite only the shapes field of
the stored record. -/
def save_shapes (store : String → Option (List (String × String))) (id : String)
    (shapes : String) : String → Option (List (String × String)) :=
  write_state_rec store id (objAssign ((read_state_rec store id).getD []) [("shapes", shapes)])

/-! ## Document-backed variant (src/src/Chesser.ts)

This variant persists by rewriting the declarative code block through the
active markdown view.  `view` is the active view: the outer `Option` models
`getActiveViewOfType` returning null, the inner `Option` models
`get_config` failing to parse the current block text.  `rangeOk` models
whether section lookup and `replaceRange` succeed; their failure is caught
by the try/catch and silently ignored. -/

/-- The editor-facing state of the document-backed variant. -/
structure DocChesser (Pos : Type) where
  eng : Eng Pos
  cg : CgView Pos
  view : Option (Option (List (String × String)))
  rangeOk : Bool
  deriving DecidableEq

/-- `save_move()` from src/src/Chesser.ts: when no active view can be
retrieved the function throws (the throw sits outside the try block);
otherwise the block is rewritten to the current parsed config updated with
the pgn field, and a failure inside the try block is caught silently,
leaving the document unchanged and showing no notice. -/
def save_move_doc (view : Option (Option (List (String × String)))) (rangeOk : Bool)
    (pgn : String) : Except String (Option (Option (List (String × String)))) :=
  match view with
  | none => Except.error "Failed to retrieve view"
  | some cfg? =>
    if rangeOk then Except.ok (some (some (objAssign (cfg?.getD []) [("pgn", pgn)])))
    else Except.ok (some cfg?)

/-- `sync_board_with_gamestate()` from src/src/Chesser.ts: push recomputed
visual state, then `save_move`; an exception from `save_move` propagates. -/
def sync_doc {Pos : Type} (r : Rules Pos) (st : DocChesser Pos) :
    DocChesser Pos × Except String Unit :=
  let st1 : DocChesser Pos :=
    { st with cg := { st.cg with
                      check := check r st.eng.cur
                      turnWhite := color_turn r st.eng.cur
                      dests := dests r st.eng.cur } }
  match save_move_doc st1.view st1.rangeOk (pgn_of st1.eng) with
  | Except.error e => (st1, Except.error e)
  | Except.ok v => ({ st1 with view := v }, Except.ok ())

/-- The non-free move event handler of src/src/Chesser.ts: apply the move
through the rules engine, then resynchronize.  The second component is the
outcome of the handler: an error means an exception propagated out of the
controller operation. -/
def move_event_doc {Pos : Type} (r : Rules Pos) (st : DocChesser Pos)
    (orig dest : String) : DocChesser Pos × Except String Unit :=
  let res := engMove r st.eng (some (orig, dest))
  sync_doc r { st with eng := res.2 }

/-! ## A concrete rules engine for witnesses and counterexamples

A small deterministic engine over positions given by the list of applied
move tokens: a move between two distinct squares of the board is legal.
It drives the controller code on concrete inputs; none of the general
theorems depend on it. -/

/-- The squares of the toy engine. -/
def toySquares : List String := ["e2", "e4", "e7", "e5"]

/-- The toy rules engine. -/
def toyRules : Rules (List String) :=
  { applyFromTo := fun p f t =>
      if f ≠ t ∧ f ∈ toySquares ∧ t ∈ toySquares then
        some ({ mfrom := f, mto := t, san := f ++ t }, p ++ [f ++ t])
      else none
    turnWhite := fun p => p.length % 2 = 0
    inCheck := fun _ => false
    movesFrom := fun _ s =>
      if s ∈ toySquares then
        (toySquares.filter fun t => t ≠ s).map fun t => { mfrom := s, mto := t, san := s ++ t }
      else []
    squares := toySquares }

/-- A fresh rules-engine instance at the initial position (new Chess()). -/
def engStart : Eng (List String) := { cur := [], hist := [] }

/-- A fresh board: no pgn or fen in the config, no declared cursor, empty
store.  The constructor leaves the ledger empty and the cursor at the
sentinel -1. -/
def st0 : CState (List String) := mkChesser toyRules engStart none []

/-- The state after the rendering engine delivers the legal move e2 to e4
on the fresh board. -/
def stAfterMove : CState (List String) := move_event toyRules st0 "e2" "e4"

/-- The state after the e2-e4 move is undone and then redone. -/
def stAfterUndoRedo : CState (List String) :=
  redo_move toyRules (undo_move toyRules stAfterMove)

/-- A document-backed board whose active view cannot be retrieved. -/
def stDocNoView : DocChesser (List String) :=
  { eng := engStart
    cg := { fen := [], check := false, turnWhite := true, dests := [] }
    view := none
    rangeOk := true }

/-- A second document-backed board, mid-game, whose active view cannot be
retrieved. -/
def stDocMidGame : DocChesser (List String) :=
  { eng := { cur := ["e7e5"], hist := [] }
    cg := { fen := ["e7e5"], check := false, turnWhite := false, dests := [] }
    view := none
    rangeOk := false }

/-- A parser for stored records that rejects the empty string, the way
JSON.parse throws on empty input. -/
def demoParse (s : String) : Option (List (String × String)) :=
  if s.isEmpty then none else some [("pgn", s)]

/-- A keyed store holding an unparseable entry for instance abc. -/
def demoStore (k : String) : Option String :=
  if k = "chesser-abc" then some "" else none

/-- A keyed store holding a two-field record for instance xyz. -/
def store0 : String → Option (List (String × String)) :=
  fun k => if k = "chesser-xyz" then some [("pgn", "old"), ("shapes", "circles")] else none

/-! ## Lemmas on the JavaScript object model -/

theorem getProp_nil {V : Type} (k : String) : getProp ([] : List (String × V)) k = none := rfl

theorem getProp_cons {V : Type} (p : String × V) (rest : List (String × V)) (k : String) :
    getProp (p :: rest) k = if p.1 = k then some p.2 else getProp rest k := rfl

theorem getProp_append_none {V : Type} (a b : List (String × V)) (k : String)
    (h : getProp a k = none) : getProp (a ++ b) k = getProp b k := by
  induction a with
  | nil => rfl
  | cons p rest ih =>
    rw [getProp_cons] at h
    rw [List.cons_append, getProp_cons]
    by_cases hk : p.1 = k
    · rw [if_pos hk] at h; cases h
    · rw [if_neg hk] at h
      rw [if_neg hk, ih h]

theorem getProp_append_single_ne {V : Type} (o : List (String × V)) (k : String) (v : V)
    (k' : String) (h : k' ≠ k) : getProp (o ++ [(k, v)]) k' = getProp o k' := by
  induction o with
  | nil =>
    rw [List.nil_append, getProp_cons]
    exact if_neg fun hh => h (Eq.symm hh)
  | cons p rest ih =>
    rw [List.cons_append, getProp_cons, getProp_cons, ih]

theorem getProp_map_set {V : Type} (o : List (String × V)) (k : String) (v : V)
    (h : (getProp o k).isSome = true) :
    getProp (o.map fun p => if p.1 = k then (k, v) else p) k = some v := by
  induction o with
  | nil => rw [getProp_nil] at h; cases h
  | cons p rest ih =>
    rw [List.map_cons]
    by_cases hk : p.1 = k
    · rw [if_pos hk, getProp_cons, if_pos rfl]
    · have h' : (getProp rest k).isSome = true := by
        rw [getProp_cons, if_neg hk] at h; exact h
      rw [if_neg hk, getProp_cons, if_neg hk]
      exact ih h'

theorem getProp_map_ne {V : Type} (o : List (String × V)) (k : String) (v : V)
    (k' : String) (h : k' ≠ k) :
    getProp (o.map fun p => if p.1 = k then (k, v) else p) k' = getProp o k' := by
  induction o with
  | nil => rfl
  | cons p rest ih =>
    rw [List.map_cons]
    by_cases hk : p.1 = k
    · rw [if_pos hk, getProp_cons, getProp_cons,
        if_neg (fun hh : (k, v).1 = k' => h (Eq.symm hh)),
        if_neg (fun hh : p.1 = k' => h (Eq.symm (hk ▸ hh))), ih]
    · rw [if_neg hk, getProp_cons, getProp_cons, ih]

theorem getProp_setProp_self {V : Type} (o : List (String × V)) (k : String) (v : V) :
    getProp (setProp o k v) k = some v := by
  cases hx : getProp o k with
  | some w =>
    have h : (getProp o k).isSome = true := by simp [hx]
    simpa [setProp, hx] using getProp_map_set o k v h
  | none =>
    simp only [setProp, hx]
    rw [getProp_append_none o _ k hx]
    simp [getProp]

theorem getProp_setProp_ne {V : Type} (o : List (String × V)) (k : String) (v : V)
    (k' : String) (h : k' ≠ k) : getProp (setProp o k v) k' = getProp o k' := by
  cases hx : getProp o k with
  | some w => simpa [setProp, hx] using getProp_map_ne o k v k' h
  | none => simpa [setProp, hx] using getProp_append_single_ne o k v k' h

theorem objAssign_cons {V : Type} (a : List (String × V)) (p : String × V)
    (rest : List (String × V)) :
    objAssign a (p :: rest) = objAssign (setProp a p.1 p.2) rest := rfl

theorem getProp_objAssign_notin {V : Type} (b : List (String × V)) :
    ∀ (a : List (String × V)) (k : String), (∀ p ∈ b, p.1 ≠ k) →
      getProp (objAssign a b) k = getProp a k := by
  induction b with
  | nil => intro a k _; rfl
  | cons p rest ih =>
    intro a k h
    rw [objAssign_cons,
      ih (setProp a p.1 p.2) k (fun q hq => h q (List.mem_cons_of_mem _ hq)),
      getProp_setProp_ne a p.1 p.2 k (Ne.symm (h p (List.mem_cons_self _ _)))]

theorem getProp_objAssign_some {V : Type} (b : List (String × V)) :
    ∀ (a : List (String × V)) (k : String) (v : V),
      (b.map Prod.fst).Nodup → getProp b k = some v →
      getProp (objAssign a b) k = some v := by
  induction b with
  | nil => intro a k v _ h; exact Option.noConfusion h
  | cons p rest ih =>
    intro a k v hnd h
    rw [objAssign_cons]
    rw [getProp_cons] at h
    by_cases hk : p.1 = k
    · rw [if_pos hk] at h
      have hv : p.2 = v := Option.some.inj h
      have hmem : p.1 ∉ rest.map Prod.fst := by
        rw [List.map_cons] at hnd
        exact (List.nodup_cons.mp hnd).1
      have hni : ∀ q ∈ rest, q.1 ≠ k := by
        intro q hq hqk
        refine hmem ?_
        rw [hk]
        exact hqk ▸ List.mem_map_of_mem Prod.fst hq
      rw [getProp_objAssign_notin rest _ k hni]
      subst hk
      rw [getProp_setProp_self a p.1 p.2, hv]
    · rw [if_neg hk] at h
      have hnd' : (rest.map Prod.fst).Nodup := by
        rw [List.map_cons] at hnd
        exact (List.nodup_cons.mp hnd).2
      exact ih (setProp a p.1 p.2) k v hnd' h

/-! ## Claims C1 to C5: the synchronization controller -/

/-- Claim C1: an accepted legal move event in non-free mode applies the move
through the rules engine, appends the resulting move to the ledger, advances
currentMoveIdx to the new ledger end, recomputes destinations, turn color
and check, pushes them to the rendering engine, and persists.  The code
performs every step except the cursor advance: on the fresh board, after the
legal move e2-e4 is delivered, the ledger has one entry and the state is
persisted and resynchronized, but currentMoveIdx is still the sentinel -1
rather than the new end 0. -/
theorem c1_move_event_cursor_not_advanced :
    stAfterMove.moves = [some { mfrom := "e2", mto := "e4", san := "e2e4" }] ∧
    stAfterMove.eng.cur = ["e2e4"] ∧
    stAfterMove.writes = st0.writes + 1 ∧
    getProp stAfterMove.stored "pgn" = some "e2e4" ∧
    stAfterMove.cg.turnWhite = color_turn toyRules stAfterMove.eng.cur ∧
    stAfterMove.cg.check = check toyRules stAfterMove.eng.cur ∧
    stAfterMove.cg.dests = dests toyRules stAfterMove.eng.cur ∧
    stAfterMove.cursor = -1 ∧
    stAfterMove.cursor ≠ (stAfterMove.moves.length : Int) - 1 :=
  ⟨rfl, rfl, rfl, rfl, rfl, rfl, rfl, rfl, by decide⟩

/-- Claim C2: after every controller operation the rules-engine position
equals the ledger replayed from the initial position up to and including
currentMoveIdx.  The code violates this after the very first accepted move:
the engine position contains the move while the replay up to the unadvanced
cursor -1 is still the initial position. -/
theorem c2_replay_invariant_violated :
    replayLedger toyRules engStart.cur stAfterMove.moves stAfterMove.cursor = [] ∧
    stAfterMove.eng.cur = ["e2e4"] ∧
    stAfterMove.eng.cur
      ≠ replayLedger toyRules engStart.cur stAfterMove.moves stAfterMove.cursor :=
  ⟨rfl, rfl, by decide⟩

/-- Claim C3: calling undo with the cursor at the sentinel (initial
position, no prior move) is a no-op with no persistence write.  The guard in
the code tests currentMoveIdx against 0, not the sentinel -1, so on a fresh
board undo decrements the cursor to -2, performs a persistence write, and
changes the stored record. -/
theorem c3_undo_at_sentinel_mutates :
    st0.cursor = -1 ∧ st0.moves = [] ∧ st0.writes = 0 ∧ st0.stored = [] ∧
    (undo_move toyRules st0).cursor = -2 ∧
    (undo_move toyRules st0).writes = 1 ∧
    (undo_move toyRules st0).stored = [("pgn", "")] ∧
    undo_move toyRules st0 ≠ st0 :=
  ⟨rfl, rfl, rfl, rfl, rfl, rfl, rfl, by decide⟩

/-- Claim C4: when the cursor is at the ledger end, redo is a no-op: the
cursor, the rules-engine position, the ledger, the persisted record and the
write count are all unchanged.  The guard in the code returns before any
mutation exactly when currentMoveIdx equals length minus one. -/
theorem c4_redo_at_end_noop {Pos : Type} (r : Rules Pos) (st : CState Pos)
    (h : st.cursor = (st.moves.length : Int) - 1) :
    redo_move r st = st ∧
    (redo_move r st).writes = st.writes ∧
    (redo_move r st).stored = st.stored := by
  have he : redo_move r st = st := by
    unfold redo_move
    rw [if_pos h]
  exact ⟨he, by rw [he], by rw [he]⟩

/-- Witness for C4: on the fresh board the cursor -1 is the ledger end of
the empty ledger, and redo leaves the state untouched. -/
theorem c4_redo_at_end_noop_witness :
    redo_move toyRules st0 = st0 ∧
    (redo_move toyRules st0).writes = st0.writes ∧
    (redo_move toyRules st0).stored = st0.stored :=
  c4_redo_at_end_noop toyRules st0 (by decide)

/-- Claim C5: whenever undo actually rewinds, undo followed by redo restores
the diagram serialization and the cursor.  On the reachable state after the
accepted move e2-e4 on a fresh board, the cursor is -1 (not 0), so undo
rewinds the engine to the initial position; redo then reads the ledger at
index -1 (undefined), the rules engine ignores the null move, and the
diagram stays at the initial position instead of being restored. -/
theorem c5_undo_redo_not_roundtrip :
    stAfterMove.cursor ≠ 0 ∧
    (undo_move toyRules stAfterMove).eng.cur ≠ stAfterMove.eng.cur ∧
    stAfterUndoRedo.cursor = stAfterMove.cursor ∧
    stAfterUndoRedo.eng.cur = [] ∧
    stAfterMove.eng.cur = ["e2e4"] ∧
    stAfterUndoRedo.eng.cur ≠ stAfterMove.eng.cur :=
  ⟨by decide, by decide, rfl, rfl, rfl, by decide⟩

/-! ## Claims C6 to C10: configuration merge, identity, persistence -/

/-- Claim C6: the configuration merge gives every field defined by the
persisted record its persisted value, overriding the declared value
field-by-field.  This is Object.assign of the declared config and then the
saved record over a fresh object; a record parsed from JSON has pairwise
distinct keys. -/
theorem c6_merge_persisted_overrides (user saved : List (String × String))
    (k : String) (v : String) (hnd : (saved.map Prod.fst).Nodup)
    (h : getProp saved k = some v) :
    getProp (merge_config user (some saved)) k = some v :=
  getProp_objAssign_some saved (objAssign [] user) k v hnd h

/-- Witness for C6: declared orientation white, persisted orientation black,
effective orientation black. -/
theorem c6_merge_persisted_overrides_witness :
    getProp (merge_config [("orientation", "white")] (some [("orientation", "black")]))
      "orientation" = some "black" :=
  c6_merge_persisted_overrides [("orientation", "white")] [("orientation", "black")]
    "orientation" "black" (by decide) (by decide)

/-- The nanoid model returns a string of exactly the requested length. -/
theorem nanoid_length (rand : Nat → Char) (n : Nat) : (nanoid rand n).length = n := by
  simp [nanoid, String.length]

/-- Claim C7: when the declared config carries no id, a fresh 8-character
identifier is generated, exactly one write-back into the declarative source
is scheduled (run once when the host layout is ready), and a reload of the
updated source finds and reuses that identifier, generating nothing and
scheduling no further write-back; a declared id is used unchanged. -/
theorem c7_id_generation_writeback (src : List (String × String)) (rand : Nat → Char)
    (fresh2 : String) (hid : getProp src "id" = none) :
    chesser_id (getProp src "id") (nanoid rand 8) = nanoid rand 8 ∧
    (nanoid rand 8).length = 8 ∧
    writeback_scheduled (getProp src "id") = true ∧
    getProp (write_config_merge src [("id", nanoid rand 8)]) "id" = some (nanoid rand 8) ∧
    chesser_id (getProp (write_config_merge src [("id", nanoid rand 8)]) "id") fresh2
      = nanoid rand 8 ∧
    writeback_scheduled (getProp (write_config_merge src [("id", nanoid rand 8)]) "id")
      = false ∧
    (∀ s f, chesser_id (some s) f = s) := by
  have h4 : getProp (write_config_merge src [("id", nanoid rand 8)]) "id"
      = some (nanoid rand 8) := getProp_setProp_self src "id" (nanoid rand 8)
  refine ⟨?_, nanoid_length rand 8, ?_, h4, ?_, ?_, fun s f => rfl⟩
  · rw [hid]; rfl
  · rw [hid]; rfl
  · rw [h4]; rfl
  · rw [h4]; rfl

/-- Witness for C7: a source block without an id, a fixed random source, a
distinct candidate fresh id for the second load. -/
theorem c7_id_generation_writeback_witness :
    chesser_id (getProp [("fen", "start")] "id") (nanoid (fun _ => 'a') 8)
      = nanoid (fun _ => 'a') 8 ∧
    (nanoid (fun _ => 'a') 8).length = 8 ∧
    getProp (write_config_merge [("fen", "start")] [("id", nanoid (fun _ => 'a') 8)]) "id"
      = some (nanoid (fun _ => 'a') 8) ∧
    chesser_id
      (getProp (write_config_merge [("fen", "start")] [("id", nanoid (fun _ => 'a') 8)]) "id")
      "zzzzzzzz" = nanoid (fun _ => 'a') 8 ∧
    writeback_scheduled
      (getProp (write_config_merge [("fen", "start")] [("id", nanoid (fun _ => 'a') 8)]) "id")
      = false ∧
    chesser_id (some "abcdefgh") "zzzzzzzz" = "abcdefgh" := by
  have h := c7_id_generation_writeback [("fen", "start")] (fun _ => 'a') "zzzzzzzz" (by decide)
  exact ⟨h.1, h.2.1, h.2.2.2.1, h.2.2.2.2.1, h.2.2.2.2.2.1, h.2.2.2.2.2.2 "abcdefgh" "zzzzzzzz"⟩

/-- Claim C8: reading the keyed store when the stored data under the key is
malformed does not crash: the error is reported and the result equals the
result for an absent record. -/
theorem c8_read_state_malformed_as_absent
    (parse : String → Option (List (String × String)))
    (store : String → Option String) (id s : String)
    (hs : store ("chesser-" ++ id) = some s) (hp : parse s = none) :
    read_state parse store id = (none, true) ∧
    (read_state parse store id).1 = (read_state parse (fun _ => none) id).1 := by
  have e1 : read_state parse store id = (none, true) := by
    unfold read_state
    rw [hs]
    show (match parse s with
          | some r => (some r, false)
          | none => ((none : Option (List (String × String))), true))
        = (none, true)
    rw [hp]
  refine ⟨e1, ?_⟩
  rw [e1]
  rfl

/-- Witness for C8: the store holds the empty string under the key of
instance abc, which the parser rejects. -/
theorem c8_read_state_malformed_as_absent_witness :
    read_state demoParse demoStore "abc" = (none, true) ∧
    (read_state demoParse demoStore "abc").1
      = (read_state demoParse (fun _ => none) "abc").1 :=
  c8_read_state_malformed_as_absent demoParse demoStore "abc" "" (by decide) (by decide)

/-- Claim C9 is false on the code: when the active view cannot be
retrieved, save_move throws outside its try block and no caller catches the
exception, so it propagates out of the controller move operation.  Here the
move event on a board without a retrievable view yields an error outcome
instead of the silent no-op the claim requires. -/
theorem c9_counterexample_save_throws :
    (move_event_doc toyRules stDocNoView "e2" "e4").2
      = Except.error "Failed to retrieve view" := rfl

/-- Claim C9 amended: when a save attempt cannot reach the active
document/editor, the controller operation throws and the exception
propagates out of it uncaught and without any notice; the in-memory board
state still reflects the applied move (the engine keeps the move and no
document write occurs), so the board remains usable. -/
theorem c9_amended_throw_propagates {Pos : Type} (r : Rules Pos) (st : DocChesser Pos)
    (orig dest : String) (h : st.view = none) :
    (move_event_doc r st orig dest).2 = Except.error "Failed to retrieve view" ∧
    (move_event_doc r st orig dest).1.eng = (engMove r st.eng (some (orig, dest))).2 ∧
    (move_event_doc r st orig dest).1.view = none := by
  simp [move_event_doc, sync_doc, save_move_doc, h]

/-- Witness for C9 amended: a mid-game board whose view is unreachable. -/
theorem c9_amended_throw_propagates_witness :
    (move_event_doc toyRules stDocMidGame "e4" "e5").2
      = Except.error "Failed to retrieve view" ∧
    (move_event_doc toyRules stDocMidGame "e4" "e5").1.eng
      = (engMove toyRules stDocMidGame.eng (some ("e4", "e5"))).2 ∧
    (move_event_doc toyRules stDocMidGame "e4" "e5").1.view = none :=
  c9_amended_throw_propagates toyRules stDocMidGame "e4" "e5" rfl

/-- Reading back the key just written into the keyed store returns exactly
the written record. -/
theorem read_write_state_rec (store : String → Option (List (String × String)))
    (id : String) (r : List (String × String)) :
    read_state_rec (write_state_rec store id r) id = some r := by
  unfold read_state_rec write_state_rec
  rw [if_pos rfl]

/-- Claim C10: saving a move rewrites only the pgn field of the record
stored under the instance key, leaving every other stored field unchanged;
saving shapes rewrites only the shapes field and leaves pgn unchanged. -/
theorem c10_save_frame_effect (store : String → Option (List (String × String)))
    (id pgn shapes : String) (stored : List (String × String))
    (h : read_state_rec store id = some stored) :
    (read_state_rec (save_move store id pgn) id
        = some (objAssign stored [("pgn", pgn)]) ∧
      getProp (objAssign stored [("pgn", pgn)]) "pgn" = some pgn ∧
      ∀ k, k ≠ "pgn" →
        getProp (objAssign stored [("pgn", pgn)]) k = getProp stored k) ∧
    (read_state_rec (save_shapes store id shapes) id
        = some (objAssign stored [("shapes", shapes)]) ∧
      getProp (objAssign stored [("shapes", shapes)]) "shapes" = some shapes ∧
      getProp (objAssign stored [("shapes", shapes)]) "pgn" = getProp stored "pgn" ∧
      ∀ k, k ≠ "shapes" →
        getProp (objAssign stored [("shapes", shapes)]) k = getProp stored k) := by
  have h1 : read_state_rec (save_move store id pgn) id
      = some (objAssign stored [("pgn", pgn)]) := by
    unfold save_move
    rw [h]
    exact read_write_state_rec store id (objAssign ((some stored).getD []) [("pgn", pgn)])
  have h2 : read_state_rec (save_shapes store id shapes) id
      = some (objAssign stored [("shapes", shapes)]) := by
    unfold save_shapes
    rw [h]
    exact read_write_state_rec store id (objAssign ((some stored).getD []) [("shapes", shapes)])
  exact ⟨⟨h1, getProp_setProp_self stored "pgn" pgn,
      fun k hk => getProp_setProp_ne stored "pgn" pgn k hk⟩,
    ⟨h2, getProp_setProp_self stored "shapes" shapes,
      getProp_setProp_ne stored "shapes" shapes "pgn" (by decide),
      fun k hk => getProp_setProp_ne stored "shapes" shapes k hk⟩⟩

/-- Witness for C10: a stored record with pgn and shapes fields; a move
save keeps the shapes value, a shapes save keeps the pgn value. -/
theorem c10_save_frame_effect_witness :
    read_state_rec (save_move store0 "xyz" "new") "xyz"
      = some (objAssign [("pgn", "old"), ("shapes", "circles")] [("pgn", "new")]) ∧
    getProp (objAssign [("pgn", "old"), ("shapes", "circles")] [("pgn", "new")]) "shapes"
      = getProp [("pgn", "old"), ("shapes", "circles")] "shapes" ∧
    getProp (objAssign [("pgn", "old"), ("shapes", "circles")] [("shapes", "sq")]) "pgn"
      = getProp [("pgn", "old"), ("shapes", "circles")] "pgn" := by
  have h := c10_save_frame_effect store0 "xyz" "new" "sq"
    [("pgn", "old"), ("shapes", "circles")] (by decide)
  exact ⟨h.1.1, h.1.2.2 "shapes" (by decide), h.2.2.2.1⟩

end ChesserSpec
